import Mathlib

/-!
Shallow embedding of the Streaming Transcript Coordinator from
`components/messages.tsx` (the `Messages` React component of the scira
repository), together with theorems settling the specification claims
about it.

Modelling conventions:
* A message part's `type` is the raw string tag of the source's tagged
  union (`"text"`, `"reasoning"`, `"tool-<name>"`, `"data-<kind>"`).
* JavaScript `s.startsWith(p)` is modelled as `p.data.isPrefixOf s.data`
  (byte-for-byte prefix on the character sequence).
* JavaScript `part.text && part.text.trim() !== ''` (a non-blank text
  payload) is modelled as `!(text.data.all Char.isWhitespace)`: the empty
  string and whitespace-only strings are exactly the blank ones.
* JavaScript `arr[arr.length - 1]` on a possibly-empty array is modelled
  with `List.getLast?`.
* The source's `-1` sentinel for "no such index" is kept: index-valued
  computations return `Int`, with `-1` meaning "none".
-/

namespace Scira

/-- Roles a chat message can carry (the `ChatMessage` role field). -/
inductive Role where
  | user
  | assistant
  | system
deriving DecidableEq, Repr

/-- Stream status supplied by `useChat` (`'submitted' | 'streaming' | 'ready' | 'error'`). -/
inductive StreamStatus where
  | ready
  | submitted
  | streaming
  | error
deriving DecidableEq, Repr

/-- One typed content fragment of a message: the tag string and the text
payload (meaningful only for `"text"` parts; empty otherwise). -/
structure Part where
  type : String
  text : String
deriving DecidableEq, Repr

/-- A conversation turn: durable id, role, ordered parts.  A missing
`parts` array in the source (`parts?`) is modelled as the empty list. -/
structure ChatMessage where
  id : String
  role : Role
  parts : List Part
deriving DecidableEq, Repr

/-- JavaScript `s.startsWith("tool-")`: is the tag a tool-invocation tag? -/
def isToolTag (s : String) : Bool :=
  "tool-".data.isPrefixOf s.data

/-- A blank string: empty or whitespace only (JS `!t || t.trim() === ''`). -/
def isBlank (s : String) : Bool :=
  s.data.all Char.isWhitespace

/-- The `memoizedMessages` filter: keep user and assistant messages, drop
every other role. -/
def visibleTurns (msgs : List ChatMessage) : List ChatMessage :=
  msgs.filter fun m =>
    match m.role with
    | .user => true
    | .assistant => true
    | .system => false

/-- The `hasActiveToolInvocations` memo: streaming, last visible message is
assistant, and some part's tag starts with `tool-`. -/
def hasActiveToolInvocations (msgs : List ChatMessage) (status : StreamStatus) : Bool :=
  match (visibleTurns msgs).getLast? with
  | some lastMessage =>
      if status = .streaming ∧ lastMessage.role = .assistant then
        lastMessage.parts.any fun p => isToolTag p.type
      else false
  | none => false

/-- Does the message have a `text` part with a non-blank payload
(`part.type === 'text' && part.text && part.text.trim() !== ''`)? -/
def hasVisibleText (m : ChatMessage) : Bool :=
  m.parts.any fun p => p.type == "text" && !(isBlank p.text)

/-- Does the message have a part whose tag starts with `tool-`? -/
def hasToolInvocations (m : ChatMessage) : Bool :=
  m.parts.any fun p => isToolTag p.type

/-- The `isMissingAssistantResponse` memo: last visible message is user with
status ready and no error, or is assistant with status ready, no error and
no visible content (neither non-blank text nor a tool part). -/
def isMissingAssistantResponse (msgs : List ChatMessage) (status : StreamStatus)
    (error : Option String) : Bool :=
  match (visibleTurns msgs).getLast? with
  | some lastMessage =>
      if lastMessage.role = .user ∧ status = .ready ∧ error = none then true
      else if lastMessage.role = .assistant ∧ status = .ready ∧ error = none then
        !(hasVisibleText lastMessage || hasToolInvocations lastMessage)
      else false
  | none => false

/-- The `shouldShowLoading` memo: submitted, or streaming with the last
visible message a user message or an assistant message with at most one part. -/
def shouldShowLoading (msgs : List ChatMessage) (status : StreamStatus) : Bool :=
  if status = .submitted then true
  else if status = .streaming then
    match (visibleTurns msgs).getLast? with
    | some lastMessage =>
        if lastMessage.role = .user then true
        else if lastMessage.role = .assistant then lastMessage.parts.length ≤ 1
        else false
    | none => false
  else false

/-- The `lastAssistantIndex` memo: index of the most recent assistant
message among the visible ones, `-1` if there is none. -/
def lastAssistantIndex (msgs : List ChatMessage) : Int :=
  match ((visibleTurns msgs).enum.filterMap fun im =>
      if im.2.role = .assistant then some im.1 else none).getLast? with
  | some i => (i : Int)
  | none => -1

/-- The `activeAssistantIndex` memo: the last visible index when streaming
and the last visible message is assistant, else `-1`. -/
def activeAssistantIndex (msgs : List ChatMessage) (status : StreamStatus) : Int :=
  match (visibleTurns msgs).getLast? with
  | some lastMessage =>
      if status = .streaming ∧ lastMessage.role = .assistant then
        ((visibleTurns msgs).length : Int) - 1
      else -1
  | none => -1

/-- The `isActiveAssistantSkeleton` memo: streaming, last visible message is
assistant, and it has at most one part. -/
def isActiveAssistantSkeleton (msgs : List ChatMessage) (status : StreamStatus) : Bool :=
  match (visibleTurns msgs).getLast? with
  | some lastMessage =>
      if status = .streaming ∧ lastMessage.role = .assistant then
        lastMessage.parts.length ≤ 1
      else false
  | none => false

/-- The `shouldReserveLoaderMinHeight` memo: submitted, or streaming with
the last visible message a user message or the active assistant in its
skeleton phase. -/
def shouldReserveLoaderMinHeight (msgs : List ChatMessage) (status : StreamStatus) : Bool :=
  if status = .submitted then true
  else if status = .streaming then
    (match (visibleTurns msgs).getLast? with
      | some lastMessage => lastMessage.role == .user
      | none => false) || isActiveAssistantSkeleton msgs status
  else false

/-- The `shouldReduceHeight` prop computed in the render loop for the
visible message at index `i` (`false` when there is no such message; the
render loop only produces indices inside the list). -/
def shouldReduceHeight (msgs : List ChatMessage) (status : StreamStatus) (i : Nat) : Bool :=
  match (visibleTurns msgs)[i]? with
  | none => false
  | some message =>
      if message.role = .assistant then
        if status = .submitted then true
        else if status = .streaming then
          if activeAssistantIndex msgs status ≠ -1 then
            if (i : Int) = activeAssistantIndex msgs status then
              isActiveAssistantSkeleton msgs status
            else true
          else true
        else decide ((i : Int) ≠ lastAssistantIndex msgs)
      else false

/-- Inputs of the retry orchestration that come from the environment:
whether a user object is present (authenticated caller) and whether the
awaited `deleteTrailingMessages` call rejects. -/
structure RetryEnv where
  userPresent : Bool
  deleteFails : Bool
deriving DecidableEq, Repr

/-- Observable outcome of one `handleRetry` invocation: the message list
and suggested-question list after the `setMessages` / `setSuggestedQuestions`
calls (unchanged when those calls never ran), whether the deletion call was
issued, how many times `regenerate` was invoked, and whether the catch
block logged an error. -/
structure RetryResult where
  messages : List ChatMessage
  suggestedQuestions : List String
  deleteCalled : Bool
  regenerateCalls : Nat
  errorLogged : Bool
deriving DecidableEq, Repr

/-- The truncation loop of `handleRetry` (step 2): push messages in order
and stop right after the first message whose id equals `targetId`; when no
id matches, the whole list is pushed. -/
def truncateAfterId : List ChatMessage → String → List ChatMessage
  | [], _ => []
  | m :: rest, targetId =>
      if m.id = targetId then [m] else m :: truncateAfterId rest targetId

/-- The scan `messages.findLast((m) => m.role === 'user')`. -/
def findLastUser (msgs : List ChatMessage) : Option ChatMessage :=
  msgs.reverse.find? fun m => m.role == .user

/-- The `handleRetry` callback.  Its whole body runs inside one
`try`/`catch`: when the awaited deletion call rejects, control jumps to the
catch, which logs the error — the remaining steps (truncation, clearing
the suggestions, `regenerate`) never run.  When no user message exists the
callback returns immediately.  The deletion call is only attempted when a
user object is present and the located message's id is truthy (non-empty). -/
def handleRetry (env : RetryEnv) (msgs : List ChatMessage)
    (suggestedQuestions : List String) : RetryResult :=
  match findLastUser msgs with
  | none =>
      { messages := msgs, suggestedQuestions := suggestedQuestions,
        deleteCalled := false, regenerateCalls := 0, errorLogged := false }
  | some lastUserMessage =>
      let attemptsDelete := env.userPresent && !(lastUserMessage.id == "")
      if attemptsDelete && env.deleteFails then
        { messages := msgs, suggestedQuestions := suggestedQuestions,
          deleteCalled := true, regenerateCalls := 0, errorLogged := true }
      else
        { messages := truncateAfterId msgs lastUserMessage.id,
          suggestedQuestions := [],
          deleteCalled := attemptsDelete, regenerateCalls := 1, errorLogged := false }

/-- The early return of the component (`if (memoizedMessages.length === 0)
return null`): with no visible messages nothing is rendered at all. -/
def rendersNothing (msgs : List ChatMessage) : Bool :=
  (visibleTurns msgs).length == 0

/-- Whether the loading indicator is actually displayed: the component must
render (not hit the empty early return) and `shouldShowLoading` must hold. -/
def displaysLoadingIndicator (msgs : List ChatMessage) (status : StreamStatus) : Bool :=
  !(rendersNothing msgs) && shouldShowLoading msgs status

/-- State of the main transcript scroller: the pending debounced run (with
the delay it was scheduled with) and the number of scroll actions that have
actually executed. -/
structure ScrollSched where
  pending : Option Nat
  executed : Nat
deriving DecidableEq, Repr

/-- Delay of the main scroller (`status === 'streaming' ? 100 : 0`). -/
def scrollDelay (status : StreamStatus) : Nat :=
  if status = .streaming then 100 else 0

/-- One `debouncedScroll` trigger: `clearTimeout` on any pending run, then
`setTimeout` a fresh run with the status-dependent delay. -/
def debouncedScroll (status : StreamStatus) (s : ScrollSched) : ScrollSched :=
  { s with pending := some (scrollDelay status) }

/-- The pending timeout firing: its callback performs the scroll once and
the handle is spent; with nothing pending this is a no-op. -/
def firePending (s : ScrollSched) : ScrollSched :=
  match s.pending with
  | some _ => { pending := none, executed := s.executed + 1 }
  | none => s

/-- A burst of `n` back-to-back `debouncedScroll` triggers, none of whose
scheduled runs fires before the next trigger lands (all inside the
debounce window). -/
def triggerBurst (status : StreamStatus) : Nat → ScrollSched → ScrollSched
  | 0, s => s
  | n + 1, s => triggerBurst status n (debouncedScroll status s)

/-- The completion check inside the reasoning-scroll effect: some later
part of the same message is tagged exactly `text` or exactly
`tool-invocation`. -/
def reasoningComplete (parts : List Part) (partIndex : Nat) : Bool :=
  parts.enum.any fun ip =>
    decide (partIndex < ip.1) && (ip.2.type == "text" || ip.2.type == "tool-invocation")

/-- The per-part predicate the reasoning-scroll effect filters with — the
source's rendering of the spec's 4.1 `isReasoningActive`: the part at
`partIndex` is tagged `reasoning` and `reasoningComplete` does not hold
there. -/
def isReasoningActive (parts : List Part) (partIndex : Nat) : Bool :=
  match parts[partIndex]? with
  | some p => p.type == "reasoning" && !(reasoningComplete parts partIndex)
  | none => false

/-- Modelled from the spec: the spec's own wording of 4.1
`isReasoningActive`, in which a later part closes the segment when it is
tagged `text` or is a tool invocation — and per the spec's data model and
its 4.1 `hasToolInvocation`, a tool invocation is any part whose tag
begins with `tool-`.  Kept beside the source's `isReasoningActive` for
comparison. -/
def isReasoningActiveSpec (parts : List Part) (partIndex : Nat) : Bool :=
  match parts[partIndex]? with
  | some p => p.type == "reasoning" &&
      !(parts.enum.any fun ip =>
        decide (partIndex < ip.1) && (ip.2.type == "text" || isToolTag ip.2.type))
  | none => false

/-- The per-part record built by the reasoning-scroll effect. -/
structure PartInfo where
  part : Part
  messageIndex : Nat
  partIndex : Nat
deriving DecidableEq, Repr

/-- The `activeReasoning` list built inside the reasoning-scroll timeout
callback: across all messages, every `reasoning` part that is not followed
(in its own message) by a `text` or `tool-invocation` part. -/
def activeReasoning (msgs : List ChatMessage) : List PartInfo :=
  msgs.enum.flatMap fun im =>
    ((im.2.parts.enum.map fun ip => PartInfo.mk ip.2 im.1 ip.1).filter
        fun info => info.part.type == "reasoning").filter
      fun info => !(reasoningComplete im.2.parts info.partIndex)

/-- State of the reasoning sub-panel scroller: the pending scheduled run
(carrying the message list its callback closed over) and the current
scroll position of the panel. -/
structure ReasoningSched where
  pending : Option (List ChatMessage)
  scrollTop : Nat
deriving DecidableEq, Repr

/-- The reasoning-scroll effect body up to the timeout firing: clear any
pending run, then schedule a fresh one whose callback closes over the
current messages. -/
def reasoningTrigger (msgs : List ChatMessage) (s : ReasoningSched) : ReasoningSched :=
  { s with pending := some msgs }

/-- The scheduled reasoning run firing: the callback computes
`activeReasoning` and scrolls the panel to `scrollHeight` only when some
reasoning segment is active; otherwise it leaves the scroll position
untouched. -/
def reasoningFire (scrollHeight : Nat) (s : ReasoningSched) : ReasoningSched :=
  match s.pending with
  | none => s
  | some msgs =>
      { pending := none,
        scrollTop := if 0 < (activeReasoning msgs).length then scrollHeight else s.scrollTop }

/-- Example user turn used in the concrete scenarios below. -/
def exUser : ChatMessage := ⟨"a", .user, [⟨"text", "hi"⟩]⟩

/-- Example assistant turn with a single part. -/
def exAsst1 : ChatMessage := ⟨"b", .assistant, [⟨"text", "x"⟩]⟩

/-- The assistant turn `exAsst1` after a second part was appended. -/
def exAsst2 : ChatMessage := ⟨"b", .assistant, [⟨"text", "x"⟩, ⟨"text", "y"⟩]⟩

/-- Example reasoning part. -/
def exReasoningPart : Part := ⟨"reasoning", ""⟩

/-- Example text part with a non-blank payload. -/
def exTextPart : Part := ⟨"text", "t"⟩

/-- Example tool-invocation part (a tag of the `tool-<name>` family). -/
def exToolPart : Part := ⟨"tool-search", ""⟩

/-- Example turn whose reasoning segment is still active. -/
def exActiveMsg : ChatMessage := ⟨"m", .assistant, [exReasoningPart]⟩

/-- Example turn whose reasoning segment was closed by a later text part. -/
def exDoneMsg : ChatMessage := ⟨"m", .assistant, [exReasoningPart, exTextPart]⟩

/-- C4: `isMissingAssistantResponse` is true iff status is `ready`, no error
is set, and the last visible turn is either a user turn, or an assistant
turn with neither a non-blank text part nor a tool-invocation part; in
particular it is false whenever an error is set, regardless of content. -/
theorem isMissingAssistantResponse_characterization
    (msgs : List ChatMessage) (status : StreamStatus) (error : Option String) :
    (isMissingAssistantResponse msgs status error = true ↔
      (status = .ready ∧ error = none ∧
        ∃ m, (visibleTurns msgs).getLast? = some m ∧
          (m.role = .user ∨
            (m.role = .assistant ∧
              (¬ ∃ p ∈ m.parts, p.type = "text" ∧ isBlank p.text = false) ∧
              ¬ ∃ p ∈ m.parts, isToolTag p.type = true)))) ∧
    ∀ e, isMissingAssistantResponse msgs status (some e) = false := by
  constructor
  · cases h : (visibleTurns msgs).getLast? with
    | none =>
        cases status <;> rcases error with _ | e <;>
          simp [isMissingAssistantResponse, h]
    | some m =>
        cases hr : m.role <;> cases status <;> rcases error with _ | e <;>
          simp [isMissingAssistantResponse, h, hr, hasVisibleText, hasToolInvocations,
            List.any_eq_true, Bool.and_eq_true, beq_iff_eq, Bool.not_eq_true,
            not_or, and_assoc]
  · intro e
    cases h : (visibleTurns msgs).getLast? with
    | none => simp [isMissingAssistantResponse, h]
    | some m => simp [isMissingAssistantResponse, h]

/-- C5: the loading indicator condition holds iff status is `submitted`, or
status is `streaming` and the last visible turn is a user turn or an
assistant turn with at most one part; concretely, for `[user, assistant]`
with one assistant part under streaming it is true, and appending a second
part to the assistant turn flips it to false. -/
theorem shouldShowLoading_characterization
    (msgs : List ChatMessage) (status : StreamStatus) :
    (shouldShowLoading msgs status = true ↔
      (status = .submitted ∨
        (status = .streaming ∧
          ∃ m, (visibleTurns msgs).getLast? = some m ∧
            (m.role = .user ∨ (m.role = .assistant ∧ m.parts.length ≤ 1))))) ∧
    shouldShowLoading [exUser, exAsst1] .streaming = true ∧
    shouldShowLoading [exUser, exAsst2] .streaming = false := by
  refine ⟨?_, by decide, by decide⟩
  cases h : (visibleTurns msgs).getLast? with
  | none =>
      cases status <;> simp [shouldShowLoading, h]
  | some m =>
      cases hr : m.role <;> cases status <;>
        simp [shouldShowLoading, h, hr]

/-- C6 (amended): the derived-status computations are total; on the empty
turn sequence, for every status and error value, `lastAssistantIndex` is
the `-1` sentinel ("none") and the loading computation is false for every
status except `submitted` (where it is true by the unconditional first
branch) — and since the component renders nothing at all for an empty
sequence, the indicator is never displayed; the other derived flags
degenerate likewise. -/
theorem derivedStatus_empty_degenerate (status : StreamStatus) (error : Option String) :
    lastAssistantIndex [] = -1 ∧
    shouldShowLoading [] status = (status == .submitted) ∧
    displaysLoadingIndicator [] status = false ∧
    isMissingAssistantResponse [] status error = false ∧
    hasActiveToolInvocations [] status = false ∧
    isActiveAssistantSkeleton [] status = false ∧
    shouldReserveLoaderMinHeight [] status = (status == .submitted) ∧
    activeAssistantIndex [] status = -1 := by
  cases status <;>
    simp [lastAssistantIndex, shouldShowLoading, isMissingAssistantResponse,
      hasActiveToolInvocations, isActiveAssistantSkeleton, displaysLoadingIndicator,
      rendersNothing, shouldReserveLoaderMinHeight, activeAssistantIndex, visibleTurns]

/-- C6 counterexample: on the empty sequence with status `submitted` the
loading computation is true, not false as the claim states for every
status. -/
theorem shouldShowLoading_empty_submitted_cex :
    ¬ (shouldShowLoading [] .submitted = false) := by decide

/-- C10: whenever the loader reserves its minimum height, the loading
indicator condition holds as well — the reservation never appears without
the indicator. -/
theorem reserve_implies_loading (msgs : List ChatMessage) (status : StreamStatus)
    (h : shouldReserveLoaderMinHeight msgs status = true) :
    shouldShowLoading msgs status = true := by
  cases hl : (visibleTurns msgs).getLast? with
  | none =>
      cases status <;>
        simp_all [shouldReserveLoaderMinHeight, shouldShowLoading,
          isActiveAssistantSkeleton, hl]
  | some m =>
      cases hr : m.role <;> cases status <;>
        simp_all [shouldReserveLoaderMinHeight, shouldShowLoading,
          isActiveAssistantSkeleton, hl, hr]

/-- C10 witness: a concrete state where the reservation holds and hence so
does the loading condition. -/
theorem reserve_implies_loading_witness :
    shouldReserveLoaderMinHeight [exUser] .streaming = true ∧
    shouldShowLoading [exUser] .streaming = true :=
  ⟨by decide, reserve_implies_loading [exUser] .streaming (by decide)⟩

/-- Triggers never change the executed-scroll count. -/
lemma triggerBurst_executed (status : StreamStatus) (n : Nat) (s : ScrollSched) :
    (triggerBurst status n s).executed = s.executed := by
  induction n generalizing s with
  | zero => rfl
  | succ m ih => exact ih (debouncedScroll status s)

/-- After at least one trigger, exactly one run is pending, scheduled with
the status-dependent delay. -/
lemma triggerBurst_pending (status : StreamStatus) (n : Nat) (s : ScrollSched)
    (h : 1 ≤ n) : (triggerBurst status n s).pending = some (scrollDelay status) := by
  induction n generalizing s with
  | zero => omega
  | succ m ih =>
      cases Nat.eq_zero_or_pos m with
      | inl h0 => subst h0; rfl
      | inr hpos => exact ih (debouncedScroll status s) hpos

/-- C7: for the main transcript scroller, a burst of `n ≥ 1` triggers with
no fire in between executes exactly one scroll action when the pending run
fires; each trigger replaces any previously pending run with a fresh one;
the scheduled delay is 100 when streaming and 0 otherwise. -/
theorem mainScroller_debounce (status : StreamStatus) (n : Nat) (h : 1 ≤ n) :
    (firePending (triggerBurst status n ⟨none, 0⟩)).executed = 1 ∧
    (firePending (triggerBurst status n ⟨none, 0⟩)).pending = none ∧
    (∀ s, (debouncedScroll status s).pending = some (scrollDelay status)) ∧
    scrollDelay .streaming = 100 ∧
    (∀ st, st ≠ .streaming → scrollDelay st = 0) := by
  have hT : triggerBurst status n ⟨none, 0⟩ = ⟨some (scrollDelay status), 0⟩ := by
    have hp := triggerBurst_pending status n ⟨none, 0⟩ h
    have he := triggerBurst_executed status n ⟨none, 0⟩
    cases hS : triggerBurst status n ⟨none, 0⟩
    rw [hS] at hp he
    simp only at hp he
    simp [hp, he]
  rw [hT]
  refine ⟨rfl, rfl, fun s => rfl, rfl, fun st hst => ?_⟩
  cases st with
  | ready => rfl
  | submitted => rfl
  | streaming => exact absurd rfl hst
  | error => rfl

/-- C7 witness: a burst of three triggers at status `ready`. -/
theorem mainScroller_debounce_witness :
    1 ≤ 3 ∧
    ((firePending (triggerBurst .ready 3 ⟨none, 0⟩)).executed = 1 ∧
      (firePending (triggerBurst .ready 3 ⟨none, 0⟩)).pending = none ∧
      (∀ s, (debouncedScroll .ready s).pending = some (scrollDelay .ready)) ∧
      scrollDelay .streaming = 100 ∧
      (∀ st, st ≠ .streaming → scrollDelay st = 0)) :=
  ⟨by decide, mainScroller_debounce .ready 3 (by decide)⟩

/-- C2 counterexample: with `[user, assistant-with-one-part]` streaming, the
turn at index 1 is the active assistant and the skeleton condition holds
there, yet `shouldReduceHeight` is true — the claim demands false in
exactly that case. -/
theorem shouldReduceHeight_claim_cex :
    activeAssistantIndex [exUser, exAsst1] .streaming = 1 ∧
    isActiveAssistantSkeleton [exUser, exAsst1] .streaming = true ∧
    (visibleTurns [exUser, exAsst1])[1]? = some exAsst1 ∧
    exAsst1.role = .assistant ∧
    shouldReduceHeight [exUser, exAsst1] .streaming 1 = true := by decide

/-- C2 (amended): for an assistant turn at visible index `i`, under status
submitted or streaming the `shouldReduceHeight` flag is true unless status
is streaming, `i` is the active assistant index, and the skeleton condition
FAILS at `i` (so at the active index the flag equals the skeleton
condition); when status is neither streaming nor submitted, the flag equals
`i ≠ lastAssistantIndex`. -/
theorem shouldReduceHeight_rule (msgs : List ChatMessage) (status : StreamStatus)
    (i : Nat) (m : ChatMessage) (hi : (visibleTurns msgs)[i]? = some m)
    (hrole : m.role = .assistant) :
    ((status = .submitted ∨ status = .streaming) →
      (shouldReduceHeight msgs status i = false ↔
        (status = .streaming ∧ (i : Int) = activeAssistantIndex msgs status ∧
          isActiveAssistantSkeleton msgs status = false))) ∧
    (status ≠ .streaming → status ≠ .submitted →
      shouldReduceHeight msgs status i = decide ((i : Int) ≠ lastAssistantIndex msgs)) := by
  unfold shouldReduceHeight
  rw [hi]
  cases status with
  | submitted =>
      refine ⟨fun _ => ?_, fun _ hns => absurd rfl hns⟩
      simp [hrole]
  | streaming =>
      refine ⟨fun _ => ?_, fun hns _ => absurd rfl hns⟩
      simp only [hrole]
      by_cases ha : activeAssistantIndex msgs .streaming = -1
      · have hia : ¬ ((i : Int) = activeAssistantIndex msgs .streaming) := by
          rw [ha]; omega
        simp [ha, hia]
      · by_cases hieq : (i : Int) = activeAssistantIndex msgs .streaming
        · simp [ha, hieq]
        · simp [ha, hieq]
  | ready =>
      refine ⟨fun hss => ?_, fun _ _ => by simp [hrole]⟩
      rcases hss with hss | hss <;> cases hss
  | error =>
      refine ⟨fun hss => ?_, fun _ _ => by simp [hrole]⟩
      rcases hss with hss | hss <;> cases hss

/-- C2 witness: the amended rule at the concrete streaming skeleton state. -/
theorem shouldReduceHeight_rule_witness :
    (visibleTurns [exUser, exAsst1])[1]? = some exAsst1 ∧
    exAsst1.role = .assistant ∧
    (((.streaming : StreamStatus) = .submitted ∨ (.streaming : StreamStatus) = .streaming) →
      (shouldReduceHeight [exUser, exAsst1] .streaming 1 = false ↔
        ((.streaming : StreamStatus) = .streaming ∧
          ((1 : Nat) : Int) = activeAssistantIndex [exUser, exAsst1] .streaming ∧
          isActiveAssistantSkeleton [exUser, exAsst1] .streaming = false))) ∧
    ((.streaming : StreamStatus) ≠ .streaming → (.streaming : StreamStatus) ≠ .submitted →
      shouldReduceHeight [exUser, exAsst1] .streaming 1 =
        decide (((1 : Nat) : Int) ≠ lastAssistantIndex [exUser, exAsst1])) :=
  ⟨by decide, rfl,
    (shouldReduceHeight_rule [exUser, exAsst1] .streaming 1 exAsst1 (by decide) rfl).1,
    (shouldReduceHeight_rule [exUser, exAsst1] .streaming 1 exAsst1 (by decide) rfl).2⟩

/-- Completion of a reasoning segment, characterised: some strictly later
part of the same turn is tagged exactly `text` or exactly `tool-invocation`. -/
lemma reasoningComplete_iff (parts : List Part) (k : Nat) :
    reasoningComplete parts k = true ↔
      ∃ j p, k < j ∧ parts[j]? = some p ∧
        (p.type = "text" ∨ p.type = "tool-invocation") := by
  unfold reasoningComplete
  rw [List.any_eq_true]
  constructor
  · rintro ⟨⟨j, p⟩, hmem, hcond⟩
    rw [List.mk_mem_enum_iff_getElem?] at hmem
    simp only [Bool.and_eq_true, Bool.or_eq_true, beq_iff_eq, decide_eq_true_eq] at hcond
    exact ⟨j, p, hcond.1, hmem, hcond.2⟩
  · rintro ⟨j, p, hk, hj, hor⟩
    refine ⟨(j, p), List.mk_mem_enum_iff_getElem?.mpr hj, ?_⟩
    simp only [Bool.and_eq_true, Bool.or_eq_true, beq_iff_eq, decide_eq_true_eq]
    exact ⟨hk, hor⟩

/-- Non-completion of a reasoning segment, characterised pointwise. -/
lemma reasoningComplete_eq_false_iff (parts : List Part) (k : Nat) :
    reasoningComplete parts k = false ↔
      ∀ j q, k < j → parts[j]? = some q →
        q.type ≠ "text" ∧ q.type ≠ "tool-invocation" := by
  rw [Bool.eq_false_iff, Ne, reasoningComplete_iff]
  push_neg
  constructor
  · intro h j q hkj hjq
    exact h j q hkj hjq
  · intro h j q hkj hjq
    exact h j q hkj hjq

/-- C3 counterexample: in the turn `[reasoning, tool-search]` the later part
is a tool invocation (its tag is of the `tool-` family), yet the source's
predicate still reports the reasoning segment at index 0 as active — the
claimed equivalence fails at this input. -/
theorem isReasoningActive_claim_cex :
    ¬ (isReasoningActive [exReasoningPart, exToolPart] 0 = true ↔
        ((∃ p, [exReasoningPart, exToolPart][0]? = some p ∧ p.type = "reasoning") ∧
          ∀ j q, 0 < j → [exReasoningPart, exToolPart][j]? = some q →
            q.type ≠ "text" ∧ isToolTag q.type = false)) := by
  intro h
  have h2 := h.mp (by decide)
  have h3 := h2.2 1 exToolPart (by decide) (by decide)
  exact absurd h3.2 (by decide)

/-- C3 (amended): a reasoning segment is active iff the part at the index
is tagged `reasoning` and no later part of the same turn is tagged `text`
or tagged exactly `tool-invocation` (tool tags of the `tool-<name>` family
other than the literal `tool-invocation` do not close it); in particular,
for `[reasoning, text]` it is false at index 0 and for `[reasoning]` alone
it is true. -/
theorem isReasoningActive_rule (parts : List Part) (k : Nat) :
    (isReasoningActive parts k = true ↔
      ((∃ p, parts[k]? = some p ∧ p.type = "reasoning") ∧
        ∀ j q, k < j → parts[j]? = some q →
          q.type ≠ "text" ∧ q.type ≠ "tool-invocation")) ∧
    isReasoningActive [exReasoningPart, exTextPart] 0 = false ∧
    isReasoningActive [exReasoningPart] 0 = true := by
  refine ⟨?_, by decide, by decide⟩
  unfold isReasoningActive
  cases h : parts[k]? with
  | none => simp [h]
  | some p =>
      rw [Bool.and_eq_true, beq_iff_eq, Bool.not_eq_true', reasoningComplete_eq_false_iff]
      constructor
      · rintro ⟨hty, hall⟩
        exact ⟨⟨p, rfl, hty⟩, hall⟩
      · rintro ⟨⟨q, hq, hty⟩, hall⟩
        injection hq with hpq
        subst hpq
        exact ⟨hty, hall⟩

/-- C8: when the reasoning scroller's scheduled run fires, the callback
recomputes `activeReasoning`; when it is empty the scroll position is left
untouched (and the run is spent), no matter what run was previously
pending — and emptiness means every reasoning segment of every turn is
inactive. -/
theorem reasoningScroller_noop (s : ReasoningSched) (msgs : List ChatMessage)
    (scrollHeight : Nat) (hnone : activeReasoning msgs = []) :
    (reasoningFire scrollHeight (reasoningTrigger msgs s)).scrollTop = s.scrollTop ∧
    (reasoningFire scrollHeight (reasoningTrigger msgs s)).pending = none ∧
    ∀ (mi : Nat) (m : ChatMessage), msgs[mi]? = some m → ∀ k, isReasoningActive m.parts k = false := by
  refine ⟨by simp [reasoningTrigger, reasoningFire, hnone],
    by simp [reasoningTrigger, reasoningFire, hnone], ?_⟩
  intro mi m hmi k
  by_contra hact
  rw [Bool.not_eq_false] at hact
  unfold isReasoningActive at hact
  cases hp : m.parts[k]? with
  | none => rw [hp] at hact; cases hact
  | some p =>
      rw [hp] at hact
      rw [Bool.and_eq_true] at hact
      have hmem : PartInfo.mk p mi k ∈ activeReasoning msgs := by
        unfold activeReasoning
        rw [List.mem_flatMap]
        refine ⟨(mi, m), List.mk_mem_enum_iff_getElem?.mpr hmi, ?_⟩
        rw [List.mem_filter]
        refine ⟨?_, hact.2⟩
        rw [List.mem_filter]
        exact ⟨List.mem_map.mpr ⟨(k, p), List.mk_mem_enum_iff_getElem?.mpr hp, rfl⟩, hact.1⟩
      rw [hnone] at hmem
      cases hmem

/-- C8 witness: a run scheduled while a segment was active is superseded; at
fire time the only reasoning segment is closed, so the panel's scroll
position stays at 7. -/
theorem reasoningScroller_noop_witness :
    activeReasoning [exDoneMsg] = [] ∧
    ((reasoningFire 42 (reasoningTrigger [exDoneMsg]
        ⟨some [exActiveMsg], 7⟩)).scrollTop = (⟨some [exActiveMsg], 7⟩ : ReasoningSched).scrollTop ∧
      (reasoningFire 42 (reasoningTrigger [exDoneMsg]
        ⟨some [exActiveMsg], 7⟩)).pending = none ∧
      ∀ (mi : Nat) (m : ChatMessage), [exDoneMsg][mi]? = some m → ∀ k, isReasoningActive m.parts k = false) :=
  ⟨by decide, reasoningScroller_noop ⟨some [exActiveMsg], 7⟩ [exDoneMsg] 42 (by decide)⟩

/-- Locating the last user turn: when the sequence is a prefix, then `A`
(a user turn), then assistant-only turns, the end-of-list scan finds `A`. -/
lemma findLastUser_append (pre : List ChatMessage) (A : ChatMessage)
    (suffix : List ChatMessage) (hA : A.role = .user)
    (hsuf : ∀ m ∈ suffix, m.role = .assistant) :
    findLastUser (pre ++ A :: suffix) = some A := by
  unfold findLastUser
  have hrev : (pre ++ A :: suffix).reverse = suffix.reverse ++ A :: pre.reverse := by
    simp
  rw [hrev, List.find?_append]
  have h1 : suffix.reverse.find? (fun m => m.role == .user) = none := by
    rw [List.find?_eq_none]
    intro x hx
    rw [List.mem_reverse] at hx
    simp [hsuf x hx]
  rw [h1, Option.none_or, List.find?_cons]
  simp [hA]

/-- The truncation loop keeps exactly the prefix through the first message
carrying the target id. -/
lemma truncateAfterId_spec (pre : List ChatMessage) (A : ChatMessage)
    (suffix : List ChatMessage) (hpre : ∀ m ∈ pre, m.id ≠ A.id) :
    truncateAfterId (pre ++ A :: suffix) A.id = pre ++ [A] := by
  induction pre with
  | nil => simp [truncateAfterId]
  | cons m rest ih =>
      have hm : m.id ≠ A.id := hpre m (by simp)
      simp only [List.cons_append, truncateAfterId, if_neg hm, List.cons.injEq, true_and]
      exact ih fun x hx => hpre x (by simp [hx])

/-- C1 counterexample: retry on `[user A, assistant B]` with an
authenticated caller whose deletion call fails does NOT truncate, clear the
suggestions, or regenerate — the catch swallows the rejection and the
remaining steps never run, contrary to the claim. -/
theorem handleRetry_deleteFails_cex :
    (handleRetry ⟨true, true⟩ [exUser, exAsst1] ["q"]).regenerateCalls = 0 ∧
    (handleRetry ⟨true, true⟩ [exUser, exAsst1] ["q"]).messages = [exUser, exAsst1] ∧
    (handleRetry ⟨true, true⟩ [exUser, exAsst1] ["q"]).suggestedQuestions = ["q"] ∧
    (handleRetry ⟨true, true⟩ [exUser, exAsst1] ["q"]).errorLogged = true := by
  decide

/-- C1 (amended): for a retry on a sequence whose last user turn is `A`
(no earlier turn shares its id) followed by assistant turns, PROVIDED the
persistence deletion call does not fail (it succeeds, or is skipped because
the caller is unauthenticated or the id is empty), the local sequence
becomes exactly the prefix ending at and including `A`, the suggested
follow-ups are cleared, and `regenerate` runs exactly once; a failing
deletion call instead aborts the whole retry with a logged error. -/
theorem handleRetry_truncates_and_regenerates (env : RetryEnv)
    (pre : List ChatMessage) (A : ChatMessage) (suffix : List ChatMessage)
    (sq : List String) (hA : A.role = .user)
    (hsuf : ∀ m ∈ suffix, m.role = .assistant)
    (hpre : ∀ m ∈ pre, m.id ≠ A.id)
    (hdel : (env.userPresent && !(A.id == "") && env.deleteFails) = false) :
    (handleRetry env (pre ++ A :: suffix) sq).messages = pre ++ [A] ∧
    (handleRetry env (pre ++ A :: suffix) sq).suggestedQuestions = [] ∧
    (handleRetry env (pre ++ A :: suffix) sq).regenerateCalls = 1 := by
  unfold handleRetry
  rw [findLastUser_append pre A suffix hA hsuf]
  simp [hdel, truncateAfterId_spec pre A suffix hpre]

/-- C1 witness: retry on `[user A, assistant B]` with an authenticated
caller whose deletion call succeeds. -/
theorem handleRetry_truncates_witness :
    exUser.role = .user ∧
    (∀ m ∈ [exAsst1], m.role = .assistant) ∧
    (∀ m ∈ ([] : List ChatMessage), m.id ≠ exUser.id) ∧
    (((⟨true, false⟩ : RetryEnv).userPresent && !(exUser.id == "") &&
      (⟨true, false⟩ : RetryEnv).deleteFails) = false) ∧
    ((handleRetry ⟨true, false⟩ ([] ++ exUser :: [exAsst1]) ["q"]).messages =
        [] ++ [exUser] ∧
      (handleRetry ⟨true, false⟩ ([] ++ exUser :: [exAsst1]) ["q"]).suggestedQuestions = [] ∧
      (handleRetry ⟨true, false⟩ ([] ++ exUser :: [exAsst1]) ["q"]).regenerateCalls = 1) :=
  ⟨rfl, by decide, by decide, by decide,
    handleRetry_truncates_and_regenerates ⟨true, false⟩ [] exUser [exAsst1] ["q"]
      rfl (by decide) (by decide) (by decide)⟩

/-- C9: retry on a sequence with no user turn is a no-op: the message list
and suggested-question list are unchanged, the deletion call is never
issued, and `regenerate` never runs. -/
theorem handleRetry_no_user_noop (env : RetryEnv) (msgs : List ChatMessage)
    (sq : List String) (h : ∀ m ∈ msgs, m.role ≠ .user) :
    handleRetry env msgs sq =
      { messages := msgs, suggestedQuestions := sq, deleteCalled := false,
        regenerateCalls := 0, errorLogged := false } := by
  have hnone : findLastUser msgs = none := by
    unfold findLastUser
    rw [List.find?_eq_none]
    intro x hx
    rw [List.mem_reverse] at hx
    simp only [beq_iff_eq]
    exact fun hxx => h x hx (by simpa using hxx)
  unfold handleRetry
  rw [hnone]

/-- C9 witness: retry on `[assistant B]` (no user turn anywhere). -/
theorem handleRetry_no_user_noop_witness :
    (∀ m ∈ [exAsst1], m.role ≠ .user) ∧
    handleRetry ⟨true, true⟩ [exAsst1] ["q"] =
      { messages := [exAsst1], suggestedQuestions := ["q"], deleteCalled := false,
        regenerateCalls := 0, errorLogged := false } :=
  ⟨by decide, handleRetry_no_user_noop ⟨true, true⟩ [exAsst1] ["q"] (by decide)⟩

end Scira
